import Mathlib

/-!
Shallow embedding of the brainfuck interpreter in `src/src/main.rs`.

The Rust program is a single `TuringMachine` struct with a 30000-cell `u8`
tape, a head (`pointer`), an instruction list (`program`) and a
`program_counter`, plus one method per instruction.  Stdin and stdout are
modelled as explicit byte-list state (`input` consumed from the front,
`output` appended at the back).  Rust panics (tape index out of bounds,
`usize` underflow in `move_left` under the default overflow-checked build,
`read_exact(..).unwrap()` on exhausted stdin) are modelled as `Except.error`
carrying the error kind together with the machine state at the moment of
failure.  Cell values are `Nat` kept below 256 by the explicit `% 256` of the
wrapping arithmetic; head and program counter are `Nat` (Rust `usize`).
-/

namespace BF

/-- Instructions of the language, mirroring the Rust `enum Instruction`
(`[` parses to `JumpToClose`, `]` to `JumpToOpen`, `,` to `Replace`). -/
inductive Instruction where
  | MoveRight
  | MoveLeft
  | Increment
  | Decrement
  | Output
  | Replace
  | JumpToClose
  | JumpToOpen
deriving DecidableEq, Repr

/-- Failure kinds of a run: the three ways the Rust process can panic while
executing instructions (tape indexed at or beyond 30000, `pointer -= 1` at 0,
`stdin.read_exact` on exhausted input). -/
inductive RunError where
  | headUnderflow
  | tapeOutOfBounds
  | inputExhausted
deriving DecidableEq, Repr

/-- Failure kind of parsing: the `panic!("unrecognized character: {}", c)`
arm of the Rust `parse`, carrying the offending character. -/
inductive ParseError where
  | invalidCharacter (c : Char)
deriving DecidableEq, Repr

/-- Model of the Rust `struct TuringMachine`, extended with the stdin bytes
still unread and the stdout bytes written so far (explicit I/O state). -/
structure TuringMachine where
  tape : Nat → Nat
  pointer : Nat
  program : List Instruction
  program_counter : Nat
  input : List Nat
  output : List Nat

/-- Tape capacity: the Rust tape is `[u8; 30000]`. -/
def tapeSize : Nat := 30000

/-- Pointwise update of the tape function, modelling
`self.tape[self.pointer] = v`. -/
def tapeSet (t : Nat → Nat) (p v : Nat) : Nat → Nat :=
  fun i => if i = p then v else t i

/-- Result of executing one instruction: either the new machine state, or a
panic kind together with the machine state at the moment of the panic. -/
abbrev StepResult := Except (RunError × TuringMachine) TuringMachine

/-- Machine with the given program and pending input: zeroed tape, head at 0,
program counter at 0, nothing written yet (the Rust `TuringMachine::new`,
with the program already parsed). -/
def mkMachine (prog : List Instruction) (inp : List Nat) : TuringMachine :=
  { tape := fun _ => 0
    pointer := 0
    program := prog
    program_counter := 0
    input := inp
    output := [] }

/-- Rust `move_right`: `self.pointer += 1; self.program_counter += 1`.  No
bound check of any kind (a `usize` increment cannot fail in practice). -/
def move_right (m : TuringMachine) : TuringMachine :=
  { m with pointer := m.pointer + 1, program_counter := m.program_counter + 1 }

/-- Rust `move_left`: `self.pointer -= 1; self.program_counter += 1`.  A
`usize` subtraction underflows and panics at `pointer == 0` (default
overflow-checked build), modelled as `headUnderflow`. -/
def move_left (m : TuringMachine) : StepResult :=
  if m.pointer = 0 then
    .error (.headUnderflow, m)
  else
    .ok { m with pointer := m.pointer - 1, program_counter := m.program_counter + 1 }

/-- Rust `increment`: `self.tape[self.pointer] = self.tape[self.pointer].wrapping_add(1)`.
Indexing the 30000-cell array panics when the head is out of bounds. -/
def increment (m : TuringMachine) : StepResult :=
  if m.pointer < tapeSize then
    .ok { m with tape := tapeSet m.tape m.pointer ((m.tape m.pointer + 1) % 256)
                 program_counter := m.program_counter + 1 }
  else .error (.tapeOutOfBounds, m)

/-- Rust `decrement`: `wrapping_sub(1)` on the current cell; for a cell value
below 256 the wrapped result is `(v + 255) % 256`. -/
def decrement (m : TuringMachine) : StepResult :=
  if m.pointer < tapeSize then
    .ok { m with tape := tapeSet m.tape m.pointer ((m.tape m.pointer + 255) % 256)
                 program_counter := m.program_counter + 1 }
  else .error (.tapeOutOfBounds, m)

/-- UTF-8 encoding of the Unicode code point `v` for `v < 256`: one byte below
128, otherwise the two-byte sequence `0xC0 + v / 64`, `0x80 + v % 64`. -/
def utf8Bytes (v : Nat) : List Nat :=
  if v < 128 then [v] else [192 + v / 64, 128 + v % 64]

/-- Rust `write`: `print!("{}", self.tape[self.pointer] as char)`.  A `u8`
cast to `char` is the code point of the same value, and `print!` emits its
UTF-8 encoding to stdout, modelled by appending `utf8Bytes` of the cell. -/
def write (m : TuringMachine) : StepResult :=
  if m.pointer < tapeSize then
    .ok { m with output := m.output ++ utf8Bytes (m.tape m.pointer)
                 program_counter := m.program_counter + 1 }
  else .error (.tapeOutOfBounds, m)

/-- Rust `replace`: `stdin().read_exact(&mut input).unwrap()` then
`self.tape[self.pointer] = input[0]`.  The read panics first when stdin is
exhausted (`inputExhausted`); only after a successful read is the tape
indexed, so a subsequent out-of-bounds panic has already consumed the byte. -/
def replace (m : TuringMachine) : StepResult :=
  match m.input with
  | [] => .error (.inputExhausted, m)
  | b :: rest =>
    if m.pointer < tapeSize then
      .ok { m with tape := tapeSet m.tape m.pointer b
                   input := rest
                   program_counter := m.program_counter + 1 }
    else .error (.tapeOutOfBounds, { m with input := rest })

/-- Forward scan of `get_matching_closing_bracket`: `stack` is the Vec of
pushed markers, the list argument is the not-yet-visited suffix of the
program and `token` its starting index.  On `JumpToOpen` with empty stack the
loop breaks returning the index; `JumpToClose` pushes a `JumpToOpen` marker;
when the scan runs off the end the untouched `return_token = 0` comes back. -/
def get_matching_closing_bracket_go (stack : List Instruction) :
    List Instruction → Nat → Nat
  | [], _ => 0
  | i :: rest, token =>
    match i with
    | .JumpToOpen =>
      if stack.isEmpty then token
      else get_matching_closing_bracket_go stack.tail rest (token + 1)
    | .JumpToClose =>
      get_matching_closing_bracket_go (.JumpToOpen :: stack) rest (token + 1)
    | _ => get_matching_closing_bracket_go stack rest (token + 1)

/-- Rust `get_matching_closing_bracket`: scans
`for token in bracket_to_match..self.program.len()`, so the scan starts at
the opening bracket itself. -/
def get_matching_closing_bracket (m : TuringMachine) (bracket_to_match : Nat) : Nat :=
  get_matching_closing_bracket_go [] (m.program.drop bracket_to_match) bracket_to_match

/-- Backward scan of `get_matching_opening_bracket`: the `Nat` argument is one
past the next index to visit, so `t + 1` examines `program[t]`.  `JumpToOpen`
pushes a marker; `JumpToClose` with empty stack breaks returning the index;
exhausting the range returns the untouched `return_token = 0`. -/
def get_matching_opening_bracket_go (prog : List Instruction)
    (stack : List Instruction) : Nat → Nat
  | 0 => 0
  | t + 1 =>
    match prog.getD t .MoveRight with
    | .JumpToOpen => get_matching_opening_bracket_go prog (.JumpToOpen :: stack) t
    | .JumpToClose =>
      if stack.isEmpty then t
      else get_matching_opening_bracket_go prog stack.tail t
    | _ => get_matching_opening_bracket_go prog stack t

/-- Rust `get_matching_opening_bracket`: scans
`for token in (0..bracket_to_match).rev()`, excluding the closing bracket
itself (every call site passes an in-range index, so `getD` never falls back
to its default). -/
def get_matching_opening_bracket (m : TuringMachine) (bracket_to_match : Nat) : Nat :=
  get_matching_opening_bracket_go m.program [] bracket_to_match

/-- Rust `jump_if_zero` (the `JumpToClose` instruction, source `[`): on a zero
cell the program counter is set to the result of the forward bracket scan,
otherwise it advances by one.  Reading the cell indexes the tape. -/
def jump_if_zero (m : TuringMachine) : StepResult :=
  if m.pointer < tapeSize then
    .ok (if m.tape m.pointer = 0 then
          { m with program_counter := get_matching_closing_bracket m m.program_counter }
        else
          { m with program_counter := m.program_counter + 1 })
  else .error (.tapeOutOfBounds, m)

/-- Rust `jump_unless_zero` (the `JumpToOpen` instruction, source `]`): on a
zero cell the program counter advances by one, otherwise it is set to the
result of the backward bracket scan. -/
def jump_unless_zero (m : TuringMachine) : StepResult :=
  if m.pointer < tapeSize then
    .ok (if m.tape m.pointer = 0 then
          { m with program_counter := m.program_counter + 1 }
        else
          { m with program_counter := get_matching_opening_bracket m m.program_counter })
  else .error (.tapeOutOfBounds, m)

/-- Character table of the Rust `parse` match: the eight command characters
map to their instructions, anything else is the `panic!` arm (`none`).  A
Rust match on character literals is a chain of equality tests. -/
def parseChar (c : Char) : Option Instruction :=
  if c = '>' then some .MoveRight
  else if c = '<' then some .MoveLeft
  else if c = '+' then some .Increment
  else if c = '-' then some .Decrement
  else if c = '.' then some .Output
  else if c = ',' then some .Replace
  else if c = '[' then some .JumpToClose
  else if c = ']' then some .JumpToOpen
  else none

/-- Mapping pass of `parse` over the trimmed character list; the first
unrecognized character aborts with `invalidCharacter` (the Rust panic). -/
def parseList : List Char → Except ParseError (List Instruction)
  | [] => .ok []
  | c :: cs =>
    match parseChar c with
    | none => .error (.invalidCharacter c)
    | some i =>
      match parseList cs with
      | .ok rest => .ok (i :: rest)
      | .error e => .error e

/-- Unicode White_Space test of Rust `char::is_whitespace`, the predicate of
`str::trim`: tab, line feed, vertical tab, form feed, carriage return, space,
next line, no-break space, ogham space mark, the en-quad through hair-space
range, line separator, paragraph separator, narrow no-break space, medium
mathematical space and ideographic space. -/
def isRustWhitespace (c : Char) : Bool :=
  c = '\t' || c = '\n' || c = '\x0B' || c = '\x0C' || c = '\r' || c = ' ' ||
  c = '\u0085' || c = '\u00A0' || c = '\u1680' ||
  (0x2000 ≤ c.val && c.val ≤ 0x200A) ||
  c = '\u2028' || c = '\u2029' || c = '\u202F' || c = '\u205F' || c = '\u3000'

/-- Leading- and trailing-whitespace strip of Rust `str::trim`, dropping the
Unicode White_Space characters from both ends. -/
def trimChars (s : List Char) : List Char :=
  (((s.dropWhile isRustWhitespace).reverse).dropWhile isRustWhitespace).reverse

/-- Rust `parse`: trim the source, then map each remaining character through
the fixed table. -/
def parse (s : List Char) : Except ParseError (List Instruction) :=
  parseList (trimChars s)

/-- Rust `has_instructions_left`: `self.program_counter < self.program.len()`. -/
def has_instructions_left (m : TuringMachine) : Bool :=
  m.program_counter < m.program.length

/-- Rust `perform_next_instruction`: dispatch on `self.program.get(self.program_counter)`.
The `None` arm only prints a diagnostic and changes nothing; it is unreachable
from `run`, whose loop guard ensures the counter is in range. -/
def perform_next_instruction (m : TuringMachine) : StepResult :=
  match m.program.get? m.program_counter with
  | some .MoveRight => .ok (move_right m)
  | some .MoveLeft => move_left m
  | some .Increment => increment m
  | some .Decrement => decrement m
  | some .Output => write m
  | some .Replace => replace m
  | some .JumpToClose => jump_if_zero m
  | some .JumpToOpen => jump_unless_zero m
  | none => .ok m

/-- Rust `run`: `while self.has_instructions_left() { self.perform_next_instruction(); }`,
with an explicit fuel bound since the source loop need not terminate.
`none` means the fuel ran out while still running; `some (.ok m)` is normal
termination (program counter past the end); `some (.error e)` is a panic. -/
def run : Nat → TuringMachine → Option StepResult
  | 0, m => if has_instructions_left m then none else some (.ok m)
  | n + 1, m =>
    if has_instructions_left m then
      match perform_next_instruction m with
      | .ok m2 => run n m2
      | .error em => some (.error em)
    else some (.ok m)

/-! Helper lemmas about the embedding, shared by the claim theorems below. -/

/-- An index at which `get?` succeeds is within the list. -/
theorem get_some_lt {α : Type} {l : List α} {n : Nat} {a : α}
    (h : l.get? n = some a) : n < l.length := by
  by_contra hn
  rw [List.get?_eq_none.mpr (by omega)] at h
  cases h

/-- Dispatch of `perform_next_instruction` at a `MoveRight`. -/
theorem perform_at_move_right (m : TuringMachine)
    (h : m.program.get? m.program_counter = some .MoveRight) :
    perform_next_instruction m = .ok (move_right m) := by
  unfold perform_next_instruction
  rw [h]

/-- Dispatch of `perform_next_instruction` at a `MoveLeft`. -/
theorem perform_at_move_left (m : TuringMachine)
    (h : m.program.get? m.program_counter = some .MoveLeft) :
    perform_next_instruction m = move_left m := by
  unfold perform_next_instruction
  rw [h]

/-- Dispatch of `perform_next_instruction` at an `Increment`. -/
theorem perform_at_increment (m : TuringMachine)
    (h : m.program.get? m.program_counter = some .Increment) :
    perform_next_instruction m = increment m := by
  unfold perform_next_instruction
  rw [h]

/-- Dispatch of `perform_next_instruction` at a `Decrement`. -/
theorem perform_at_decrement (m : TuringMachine)
    (h : m.program.get? m.program_counter = some .Decrement) :
    perform_next_instruction m = decrement m := by
  unfold perform_next_instruction
  rw [h]

/-- Dispatch of `perform_next_instruction` at an `Output`. -/
theorem perform_at_output (m : TuringMachine)
    (h : m.program.get? m.program_counter = some .Output) :
    perform_next_instruction m = write m := by
  unfold perform_next_instruction
  rw [h]

/-- Dispatch of `perform_next_instruction` at a `Replace`. -/
theorem perform_at_replace (m : TuringMachine)
    (h : m.program.get? m.program_counter = some .Replace) :
    perform_next_instruction m = replace m := by
  unfold perform_next_instruction
  rw [h]

/-- Dispatch of `perform_next_instruction` at a `JumpToClose`. -/
theorem perform_at_jump_to_close (m : TuringMachine)
    (h : m.program.get? m.program_counter = some .JumpToClose) :
    perform_next_instruction m = jump_if_zero m := by
  unfold perform_next_instruction
  rw [h]

/-- Dispatch of `perform_next_instruction` at a `JumpToOpen`. -/
theorem perform_at_jump_to_open (m : TuringMachine)
    (h : m.program.get? m.program_counter = some .JumpToOpen) :
    perform_next_instruction m = jump_unless_zero m := by
  unfold perform_next_instruction
  rw [h]

/-- Unfolding of `run` over one successful step. -/
theorem run_succ_ok (n : Nat) (m m2 : TuringMachine)
    (hg : has_instructions_left m = true)
    (hs : perform_next_instruction m = .ok m2) :
    run (n + 1) m = run n m2 := by
  simp [run, hg, hs]

/-- Unfolding of `run` over one failing step. -/
theorem run_succ_error (n : Nat) (m : TuringMachine) (em : RunError × TuringMachine)
    (hg : has_instructions_left m = true)
    (hs : perform_next_instruction m = .error em) :
    run (n + 1) m = some (.error em) := by
  simp [run, hg, hs]

/-- Characters recognized by the parser, in source-table order. -/
def commandChars : List Char := ['>', '<', '+', '-', '.', ',', '[', ']']

/-- Recognized characters are exactly the members of `commandChars`. -/
theorem parseChar_none_iff (c : Char) : parseChar c = none ↔ c ∉ commandChars := by
  unfold parseChar commandChars
  split_ifs with h1 h2 h3 h4 h5 h6 h7 h8 <;> subst_vars <;> simp_all

/-- A character of the command set is recognized by the table. -/
theorem parseChar_isSome_of_mem (c : Char) (h : c ∈ commandChars) :
    (parseChar c).isSome = true := by
  fin_cases h <;> rfl

/-- Mapping pass on a list of only recognized characters: a same-length
instruction list, positionally the image of the characters. -/
theorem parseList_ok (l : List Char) (h : ∀ c ∈ l, (parseChar c).isSome = true) :
    ∃ out, parseList l = .ok out ∧ out.length = l.length ∧
      ∀ i : Nat, out.get? i = (l.get? i).bind parseChar := by
  induction l with
  | nil => exact ⟨[], rfl, rfl, fun i => by cases i <;> rfl⟩
  | cons c cs ih =>
    obtain ⟨ic, hic⟩ := Option.isSome_iff_exists.mp (h c (List.mem_cons_self c cs))
    obtain ⟨out, hout, hlen, hget⟩ := ih (fun x hx => h x (List.mem_cons_of_mem _ hx))
    refine ⟨ic :: out, ?_, ?_, ?_⟩
    · simp [parseList, hic, hout]
    · simp [hlen]
    · intro i
      cases i with
      | zero => simp [hic]
      | succ n => simpa using hget n

/-- Mapping pass on a list holding an unrecognized character: the result is
the `invalidCharacter` panic at some unrecognized character of the list. -/
theorem parseList_err (l : List Char) (h : ∃ c ∈ l, parseChar c = none) :
    ∃ c, c ∈ l ∧ parseChar c = none ∧ parseList l = .error (.invalidCharacter c) := by
  induction l with
  | nil => simp at h
  | cons c cs ih =>
    cases hc : parseChar c with
    | none =>
      exact ⟨c, List.mem_cons_self c cs, hc, by simp [parseList, hc]⟩
    | some i =>
      obtain ⟨d, hd, hdn⟩ := h
      have hdcs : d ∈ cs := by
        rcases List.mem_cons.mp hd with rfl | h2
        · rw [hc] at hdn
          cases hdn
        · exact h2
      obtain ⟨e, he, hen, hpe⟩ := ih ⟨d, hdcs, hdn⟩
      exact ⟨e, List.mem_cons_of_mem _ he, hen, by simp [parseList, hc, hpe]⟩

/-! Concrete machine states of the run of the program `[-]`, used for the
termination claim: head fixed at 0, tape zero except cell 0. -/

/-- State of the `[-]` machine with program counter `pc` and cell 0 holding
`cell` (all other cells 0, head at 0, no I/O). -/
def loopM (pc cell : Nat) : TuringMachine :=
  { tape := fun i => if i = 0 then cell else 0
    pointer := 0
    program := [.JumpToClose, .Decrement, .JumpToOpen]
    program_counter := pc
    input := []
    output := [] }

/-- Updating cell 0 of a tape that is zero away from cell 0 yields the same
shape of tape. -/
theorem tapeSet_cell0 (c v : Nat) :
    tapeSet (fun i => if i = 0 then c else 0) 0 v =
      (fun i => if i = 0 then v else 0) := by
  funext i
  by_cases h : i = 0 <;> simp [tapeSet, h]

/-- Step of `[-]` at the `[` with a nonzero cell: enter the body. -/
theorem loopM_step_open (c : Nat) (hc : c ≠ 0) :
    perform_next_instruction (loopM 0 c) = .ok (loopM 1 c) := by
  rw [perform_at_jump_to_close (loopM 0 c) rfl]
  unfold jump_if_zero
  rw [if_pos (by norm_num [loopM, tapeSize])]
  simp [loopM, hc]

/-- Step of `[-]` at the `-`: wrap-decrement cell 0. -/
theorem loopM_step_dec (c : Nat) :
    perform_next_instruction (loopM 1 c) = .ok (loopM 2 ((c + 255) % 256)) := by
  rw [perform_at_decrement (loopM 1 c) rfl]
  unfold decrement
  rw [if_pos (by norm_num [loopM, tapeSize])]
  simp [loopM, tapeSet_cell0]

/-- Step of `[-]` at the `]` with a nonzero cell: jump back to the `[`. -/
theorem loopM_step_close (c : Nat) (hc : c ≠ 0) :
    perform_next_instruction (loopM 2 c) = .ok (loopM 0 c) := by
  rw [perform_at_jump_to_open (loopM 2 c) rfl]
  unfold jump_unless_zero
  rw [if_pos (by norm_num [loopM, tapeSize])]
  have hm : get_matching_opening_bracket (loopM 2 c) 2 = 0 := rfl
  simp [loopM, hc] at hm ⊢
  simp [hm]

/-- Step of `[-]` at the `]` with a zero cell: exit the loop. -/
theorem loopM_step_exit :
    perform_next_instruction (loopM 2 0) = .ok (loopM 3 0) := by
  rw [perform_at_jump_to_open (loopM 2 0) rfl]
  unfold jump_unless_zero
  rw [if_pos (by norm_num [loopM, tapeSize])]
  simp [loopM]

/-- C1: the claim that bracket matching is an involution
(`matching_open (matching_close p) = p` at every LoopOpen position `p`) fails
on the code.  In the program `+[]` the LoopOpen sits at position 1 and its
LoopClose at position 2, but `get_matching_closing_bracket 1` falls through
returning 0 — the forward scan starts at the opening bracket itself and
pushes it, so the stack is never empty at the true match — and
`get_matching_opening_bracket 0` then returns 0, not 1. -/
theorem c1_matching_not_involutive :
    (mkMachine [.Increment, .JumpToClose, .JumpToOpen] []).program.get? 1 =
      some .JumpToClose ∧
    get_matching_closing_bracket
      (mkMachine [.Increment, .JumpToClose, .JumpToOpen] []) 1 = 0 ∧
    get_matching_opening_bracket (mkMachine [.Increment, .JumpToClose, .JumpToOpen] [])
      (get_matching_closing_bracket
        (mkMachine [.Increment, .JumpToClose, .JumpToOpen] []) 1) ≠ 1 := by
  refine ⟨rfl, rfl, ?_⟩
  decide

/-- C2: the claim that a step at a LoopOpen over a zero cell sets the program
counter to the matching LoopClose fails on the code.  In the program `[]`
(LoopOpen at 0, its matching LoopClose at 1) with the initial zero tape, the
step leaves the machine completely unchanged: the program counter stays at 0
because the forward bracket scan falls through returning 0 instead of 1. -/
theorem c2_zero_cell_open_misjump :
    (mkMachine [.JumpToClose, .JumpToOpen] []).program.get? 1 = some .JumpToOpen ∧
    perform_next_instruction (mkMachine [.JumpToClose, .JumpToOpen] []) =
      .ok (mkMachine [.JumpToClose, .JumpToOpen] []) := by
  refine ⟨rfl, ?_⟩
  rw [perform_at_jump_to_close (mkMachine [.JumpToClose, .JumpToOpen] []) rfl]
  unfold jump_if_zero
  rw [if_pos (by norm_num [mkMachine, tapeSize])]
  have hm : get_matching_closing_bracket (mkMachine [.JumpToClose, .JumpToOpen] []) 0 = 0 := rfl
  simp [mkMachine] at hm ⊢
  simp [hm]

/-- C3 counterexample: the claim that an unmatched bracket makes the run fail
with `UnmatchedBracket` before any instruction executes is false.  The
one-instruction program `]` has no partner for its LoopClose, yet it parses
successfully and its run terminates normally after executing that very
instruction (program counter 1). -/
theorem c3_counterexample :
    parse [']'] = .ok [.JumpToOpen] ∧
    run 1 (mkMachine [.JumpToOpen] []) =
      some (.ok { mkMachine [.JumpToOpen] [] with program_counter := 1 }) := by
  refine ⟨rfl, ?_⟩
  have hstep : perform_next_instruction (mkMachine [.JumpToOpen] []) =
      .ok { mkMachine [.JumpToOpen] [] with program_counter := 1 } := by
    rw [perform_at_jump_to_open (mkMachine [.JumpToOpen] []) rfl]
    unfold jump_unless_zero
    rw [if_pos (by norm_num [mkMachine, tapeSize])]
    simp [mkMachine]
  rw [run_succ_ok 0 (mkMachine [.JumpToOpen] []) _ rfl hstep]
  rfl

/-- C3 amended: the code performs no bracket validation and has no
UnmatchedBracket error at all.  A source of command characters parses
successfully even when a bracket is unmatched; a jump attempted at an
unmatched bracket falls through returning position 0, so an unmatched `]`
executes normally while an unmatched `[` over a zero cell jumps to position 0
and spins there forever (here: still running after 2 steps of fuel) instead
of reporting an error. -/
theorem c3_amended :
    parse ['['] = .ok [.JumpToClose] ∧
    parse [']'] = .ok [.JumpToOpen] ∧
    get_matching_closing_bracket (mkMachine [.JumpToClose] []) 0 = 0 ∧
    get_matching_opening_bracket (mkMachine [.JumpToOpen] []) 0 = 0 ∧
    run 2 (mkMachine [.JumpToClose] []) = none := by
  refine ⟨rfl, rfl, rfl, rfl, ?_⟩
  have hstep : perform_next_instruction (mkMachine [.JumpToClose] []) =
      .ok (mkMachine [.JumpToClose] []) := by
    rw [perform_at_jump_to_close (mkMachine [.JumpToClose] []) rfl]
    unfold jump_if_zero
    rw [if_pos (by norm_num [mkMachine, tapeSize])]
    have hm : get_matching_closing_bracket (mkMachine [.JumpToClose] []) 0 = 0 := rfl
    simp [mkMachine] at hm ⊢
    simp [hm]
  rw [run_succ_ok 1 (mkMachine [.JumpToClose] []) _ rfl hstep,
    run_succ_ok 0 (mkMachine [.JumpToClose] []) _ rfl hstep]
  rfl

/-- C8: running the program `[-]` from tape cell 0 holding 5 and head 0
terminates — 15 steps of fuel suffice, the program counter reaches the
program length — and on termination cell 0 holds 0. -/
theorem c8_loop_terminates :
    ∃ m2, run 15 (loopM 0 5) = some (.ok m2) ∧
      m2.program_counter = (loopM 0 5).program.length ∧ m2.tape 0 = 0 := by
  have h : run 15 (loopM 0 5) = some (.ok (loopM 3 0)) := by
    calc run 15 (loopM 0 5)
        = run 14 (loopM 1 5) := run_succ_ok _ _ _ rfl (loopM_step_open 5 (by decide))
      _ = run 13 (loopM 2 4) := run_succ_ok _ _ _ rfl (loopM_step_dec 5)
      _ = run 12 (loopM 0 4) := run_succ_ok _ _ _ rfl (loopM_step_close 4 (by decide))
      _ = run 11 (loopM 1 4) := run_succ_ok _ _ _ rfl (loopM_step_open 4 (by decide))
      _ = run 10 (loopM 2 3) := run_succ_ok _ _ _ rfl (loopM_step_dec 4)
      _ = run 9 (loopM 0 3) := run_succ_ok _ _ _ rfl (loopM_step_close 3 (by decide))
      _ = run 8 (loopM 1 3) := run_succ_ok _ _ _ rfl (loopM_step_open 3 (by decide))
      _ = run 7 (loopM 2 2) := run_succ_ok _ _ _ rfl (loopM_step_dec 3)
      _ = run 6 (loopM 0 2) := run_succ_ok _ _ _ rfl (loopM_step_close 2 (by decide))
      _ = run 5 (loopM 1 2) := run_succ_ok _ _ _ rfl (loopM_step_open 2 (by decide))
      _ = run 4 (loopM 2 1) := run_succ_ok _ _ _ rfl (loopM_step_dec 2)
      _ = run 3 (loopM 0 1) := run_succ_ok _ _ _ rfl (loopM_step_close 1 (by decide))
      _ = run 2 (loopM 1 1) := run_succ_ok _ _ _ rfl (loopM_step_open 1 (by decide))
      _ = run 1 (loopM 2 0) := run_succ_ok _ _ _ rfl (loopM_step_dec 1)
      _ = run 0 (loopM 3 0) := run_succ_ok _ _ _ rfl loopM_step_exit
      _ = some (.ok (loopM 3 0)) := rfl
  exact ⟨loopM 3 0, h, rfl, rfl⟩

/-- C4 counterexample: the claim that Output emits exactly one byte equal to
the cell value for all 256 cell values is false for values 128..255.  With
cell 0 holding 200, the Rust `print!("{}", cell as char)` writes the UTF-8
encoding of the code point 200, which is the two bytes 195 and 136 — not the
single raw byte 200. -/
theorem c4_counterexample :
    ∃ m2, perform_next_instruction
        { mkMachine [.Output] [] with tape := tapeSet (fun _ => 0) 0 200 } = .ok m2 ∧
      m2.output = [195, 136] ∧ m2.output ≠ [200] := by
  rw [perform_at_output { mkMachine [.Output] [] with tape := tapeSet (fun _ => 0) 0 200 } rfl]
  unfold write
  rw [if_pos (by norm_num [mkMachine, tapeSize])]
  exact ⟨_, rfl, rfl, by decide⟩

/-- C4 amended: executing Output appends the UTF-8 encoding of the cell value
to the output stream and advances the program counter by 1, leaving tape,
head and input unchanged: exactly one byte equal to the cell value when the
cell holds less than 128, and the two bytes `192 + v / 64`, `128 + v % 64`
otherwise. -/
theorem c4_amended (m : TuringMachine)
    (hp : m.pointer < tapeSize)
    (hi : m.program.get? m.program_counter = some .Output) :
    ∃ m2, perform_next_instruction m = .ok m2 ∧
      m2.tape = m.tape ∧ m2.pointer = m.pointer ∧ m2.input = m.input ∧
      m2.program_counter = m.program_counter + 1 ∧
      m2.output = m.output ++
        (if m.tape m.pointer < 128 then [m.tape m.pointer]
          else [192 + m.tape m.pointer / 64, 128 + m.tape m.pointer % 64]) := by
  rw [perform_at_output m hi]
  unfold write
  rw [if_pos hp]
  exact ⟨_, rfl, rfl, rfl, rfl, rfl, rfl⟩

/-- Witness for C4 amended at the one-instruction program `.` over a zeroed
tape: both hypotheses hold and the instantiated conclusion follows by
applying the theorem. -/
theorem c4_amended_witness :
    (mkMachine [.Output] []).pointer < tapeSize ∧
    (mkMachine [.Output] []).program.get? (mkMachine [.Output] []).program_counter =
      some .Output ∧
    (∃ m2, perform_next_instruction (mkMachine [.Output] []) = .ok m2 ∧
      m2.tape = (mkMachine [.Output] []).tape ∧
      m2.pointer = (mkMachine [.Output] []).pointer ∧
      m2.input = (mkMachine [.Output] []).input ∧
      m2.program_counter = (mkMachine [.Output] []).program_counter + 1 ∧
      m2.output = (mkMachine [.Output] []).output ++
        (if (mkMachine [.Output] []).tape (mkMachine [.Output] []).pointer < 128 then
          [(mkMachine [.Output] []).tape (mkMachine [.Output] []).pointer]
          else [192 + (mkMachine [.Output] []).tape (mkMachine [.Output] []).pointer / 64,
            128 + (mkMachine [.Output] []).tape (mkMachine [.Output] []).pointer % 64])) :=
  ⟨by norm_num [mkMachine, tapeSize], rfl,
    c4_amended (mkMachine [.Output] []) (by norm_num [mkMachine, tapeSize]) rfl⟩

/-- C5: parsing is the positional image of the fixed character table on the
whitespace-trimmed source.  A trimmed source of only command characters
parses to a same-length instruction list whose i-th entry is the table image
of the i-th character; a trimmed source holding any other character fails
with `invalidCharacter` at such a character. -/
theorem c5_parse_table (s : List Char) :
    ((∀ c ∈ trimChars s, c ∈ commandChars) →
      ∃ out, parse s = .ok out ∧ out.length = (trimChars s).length ∧
        ∀ i : Nat, out.get? i = ((trimChars s).get? i).bind parseChar) ∧
    ((∃ c ∈ trimChars s, c ∉ commandChars) →
      ∃ c, c ∈ trimChars s ∧ c ∉ commandChars ∧
        parse s = .error (.invalidCharacter c)) := by
  constructor
  · intro h
    exact parseList_ok (trimChars s) (fun c hc => parseChar_isSome_of_mem c (h c hc))
  · rintro ⟨c, hc, hnc⟩
    obtain ⟨e, he, hen, hpe⟩ :=
      parseList_err (trimChars s) ⟨c, hc, (parseChar_none_iff c).mpr hnc⟩
    exact ⟨e, he, (parseChar_none_iff e).mp hen, hpe⟩

/-- Witness for C5 on two concrete sources: `"\x0B+[-]\n"` (recognized after
trimming — the leading vertical tab is Unicode White_Space that `str::trim`
strips) and `"+a"` (holds an unrecognized character). -/
theorem c5_parse_table_witness :
    ((∀ c ∈ trimChars ['\x0B', '+', '[', '-', ']', '\n'], c ∈ commandChars) ∧
      ∃ out, parse ['\x0B', '+', '[', '-', ']', '\n'] = .ok out ∧
        out.length = (trimChars ['\x0B', '+', '[', '-', ']', '\n']).length ∧
        ∀ i : Nat, out.get? i =
          ((trimChars ['\x0B', '+', '[', '-', ']', '\n']).get? i).bind parseChar) ∧
    ((∃ c ∈ trimChars ['+', 'a'], c ∉ commandChars) ∧
      ∃ c, c ∈ trimChars ['+', 'a'] ∧ c ∉ commandChars ∧
        parse ['+', 'a'] = .error (.invalidCharacter c)) :=
  ⟨⟨by decide, (c5_parse_table ['\x0B', '+', '[', '-', ']', '\n']).1 (by decide)⟩,
    ⟨by decide, (c5_parse_table ['+', 'a']).2 (by decide)⟩⟩

/-- C6: cell arithmetic wraps modulo 256 and never saturates or errors while
the head is on the tape: Increment sends a cell holding v to
`(v + 1) mod 256` (255 to 0), Decrement sends v to `(v - 1) mod 256`
(0 to 255). -/
theorem c6_wrapping (m : TuringMachine) (hp : m.pointer < tapeSize)
    (hv : m.tape m.pointer < 256) :
    (m.program.get? m.program_counter = some .Increment →
      perform_next_instruction m = .ok { m with
        tape := tapeSet m.tape m.pointer
          (if m.tape m.pointer = 255 then 0 else m.tape m.pointer + 1)
        program_counter := m.program_counter + 1 }) ∧
    (m.program.get? m.program_counter = some .Decrement →
      perform_next_instruction m = .ok { m with
        tape := tapeSet m.tape m.pointer
          (if m.tape m.pointer = 0 then 255 else m.tape m.pointer - 1)
        program_counter := m.program_counter + 1 }) := by
  constructor
  · intro hi
    rw [perform_at_increment m hi]
    unfold increment
    rw [if_pos hp]
    have hval : (m.tape m.pointer + 1) % 256 =
        if m.tape m.pointer = 255 then 0 else m.tape m.pointer + 1 := by
      split_ifs with h <;> omega
    rw [hval]
  · intro hi
    rw [perform_at_decrement m hi]
    unfold decrement
    rw [if_pos hp]
    have hval : (m.tape m.pointer + 255) % 256 =
        if m.tape m.pointer = 0 then 255 else m.tape m.pointer - 1 := by
      split_ifs with h <;> omega
    rw [hval]

/-- Witness for C6 at a machine whose cell 0 holds 255 under an Increment
(wraps to 0) and a machine whose cell 0 holds 0 under a Decrement (wraps to
255). -/
theorem c6_wrapping_witness :
    (({ mkMachine [.Increment] [] with tape := tapeSet (fun _ => 0) 0 255 }).pointer < tapeSize ∧
      ({ mkMachine [.Increment] [] with tape := tapeSet (fun _ => 0) 0 255 }).tape 0 < 256 ∧
      perform_next_instruction { mkMachine [.Increment] [] with tape := tapeSet (fun _ => 0) 0 255 } =
        .ok { { mkMachine [.Increment] [] with tape := tapeSet (fun _ => 0) 0 255 } with
          tape := tapeSet (tapeSet (fun _ => 0) 0 255) 0 0
          program_counter := 1 }) ∧
    ((mkMachine [.Decrement] []).pointer < tapeSize ∧
      (mkMachine [.Decrement] []).tape 0 < 256 ∧
      perform_next_instruction (mkMachine [.Decrement] []) =
        .ok { mkMachine [.Decrement] [] with
          tape := tapeSet (fun _ => 0) 0 255
          program_counter := 1 }) := by
  refine ⟨⟨by norm_num [mkMachine, tapeSize], by norm_num [tapeSet], ?_⟩,
    ⟨by norm_num [mkMachine, tapeSize], by norm_num [mkMachine], ?_⟩⟩
  · exact (c6_wrapping { mkMachine [.Increment] [] with tape := tapeSet (fun _ => 0) 0 255 }
      (by norm_num [mkMachine, tapeSize]) (by norm_num [mkMachine, tapeSet])).1 rfl
  · exact (c6_wrapping (mkMachine [.Decrement] [])
      (by norm_num [mkMachine, tapeSize]) (by norm_num [mkMachine])).2 rfl

/-- C7: an Input instruction executed with the input stream exhausted fails
with `inputExhausted` exactly at that instruction, and the failing step
preserves the whole machine state — tape, head, remaining program and bytes
already emitted — unchanged (the error carries the machine exactly as it
was). -/
theorem c7_input_exhausted (n : Nat) (m : TuringMachine)
    (hi : m.program.get? m.program_counter = some .Replace)
    (hin : m.input = []) :
    perform_next_instruction m = .error (.inputExhausted, m) ∧
    run (n + 1) m = some (.error (.inputExhausted, m)) := by
  have hstep : perform_next_instruction m = .error (.inputExhausted, m) := by
    rw [perform_at_replace m hi]
    unfold replace
    rw [hin]
  have hg : has_instructions_left m = true := by
    simp only [has_instructions_left, decide_eq_true_eq]
    exact get_some_lt hi
  exact ⟨hstep, run_succ_error n m _ hg hstep⟩

/-- Witness for C7 at the one-instruction program `,` with empty input. -/
theorem c7_input_exhausted_witness :
    (mkMachine [.Replace] []).program.get? (mkMachine [.Replace] []).program_counter =
      some .Replace ∧
    (mkMachine [.Replace] []).input = [] ∧
    (perform_next_instruction (mkMachine [.Replace] []) =
        .error (.inputExhausted, mkMachine [.Replace] []) ∧
      run 1 (mkMachine [.Replace] []) =
        some (.error (.inputExhausted, mkMachine [.Replace] []))) :=
  ⟨rfl, rfl, c7_input_exhausted 0 (mkMachine [.Replace] []) rfl rfl⟩

/-- C9: executing MoveLeft at head 0 is an error — the `usize` underflow
panic, modelled as `headUnderflow`, so the run does not continue with a
wrapped or negative head — while at any positive head it moves the head one
cell left and advances the program counter by 1. -/
theorem c9_move_left_bounds (m : TuringMachine)
    (hi : m.program.get? m.program_counter = some .MoveLeft) :
    (m.pointer = 0 → perform_next_instruction m = .error (.headUnderflow, m)) ∧
    (0 < m.pointer → perform_next_instruction m =
      .ok { m with pointer := m.pointer - 1, program_counter := m.program_counter + 1 }) := by
  have hd : perform_next_instruction m = move_left m := perform_at_move_left m hi
  constructor
  · intro h0
    rw [hd]
    unfold move_left
    rw [if_pos h0]
  · intro hpos
    rw [hd]
    unfold move_left
    rw [if_neg (by omega)]

/-- Witness for C9 at the program `<` with head 0 (the error branch) and with
head 2 (the moving branch). -/
theorem c9_move_left_bounds_witness :
    ((mkMachine [.MoveLeft] []).program.get? (mkMachine [.MoveLeft] []).program_counter =
        some .MoveLeft ∧
      (mkMachine [.MoveLeft] []).pointer = 0 ∧
      perform_next_instruction (mkMachine [.MoveLeft] []) =
        .error (.headUnderflow, mkMachine [.MoveLeft] [])) ∧
    (({ mkMachine [.MoveLeft] [] with pointer := 2 }).pointer = 2 ∧
      perform_next_instruction { mkMachine [.MoveLeft] [] with pointer := 2 } =
        .ok { mkMachine [.MoveLeft] [] with pointer := 1, program_counter := 1 }) :=
  ⟨⟨rfl, rfl, (c9_move_left_bounds (mkMachine [.MoveLeft] []) rfl).1 rfl⟩,
    ⟨rfl, (c9_move_left_bounds { mkMachine [.MoveLeft] [] with pointer := 2 } rfl).2
      (by norm_num)⟩⟩

/-- Instructions whose execution reads or writes `tape[head]` (every
instruction except the two head moves). -/
def tape_accessing : List Instruction :=
  [.Increment, .Decrement, .Output, .Replace, .JumpToClose, .JumpToOpen]

/-- C10: MoveRight never fails — for every machine state it increments the
head and the program counter with no upper-bound check, so the head may
reach or pass the tape capacity — and with the head at or past the capacity
a failure occurs exactly when a subsequently executed instruction accesses
`tape[head]` (Increment, Decrement, Output, Input, LoopOpen or LoopClose). -/
theorem c10_move_right_unchecked (m : TuringMachine) :
    (m.program.get? m.program_counter = some .MoveRight →
      perform_next_instruction m =
        .ok { m with pointer := m.pointer + 1, program_counter := m.program_counter + 1 }) ∧
    (tapeSize ≤ m.pointer →
      ∀ i ∈ tape_accessing, m.program.get? m.program_counter = some i →
        ∃ e m2, perform_next_instruction m = .error (e, m2)) := by
  constructor
  · intro hi
    rw [perform_at_move_right m hi]
    rfl
  · intro hp i hmem hi
    fin_cases hmem
    · rw [perform_at_increment m hi]
      unfold increment
      rw [if_neg (by omega)]
      exact ⟨_, _, rfl⟩
    · rw [perform_at_decrement m hi]
      unfold decrement
      rw [if_neg (by omega)]
      exact ⟨_, _, rfl⟩
    · rw [perform_at_output m hi]
      unfold write
      rw [if_neg (by omega)]
      exact ⟨_, _, rfl⟩
    · rw [perform_at_replace m hi]
      unfold replace
      cases hin : m.input with
      | nil => exact ⟨_, _, rfl⟩
      | cons b rest =>
        dsimp only
        rw [if_neg (by omega)]
        exact ⟨_, _, rfl⟩
    · rw [perform_at_jump_to_close m hi]
      unfold jump_if_zero
      rw [if_neg (by omega)]
      exact ⟨_, _, rfl⟩
    · rw [perform_at_jump_to_open m hi]
      unfold jump_unless_zero
      rw [if_neg (by omega)]
      exact ⟨_, _, rfl⟩

/-- Witness for C10 at the program `>` (unchecked move) and at the program
`+` with the head parked exactly at the tape capacity (failing access). -/
theorem c10_move_right_unchecked_witness :
    ((mkMachine [.MoveRight] []).program.get? (mkMachine [.MoveRight] []).program_counter =
        some .MoveRight ∧
      perform_next_instruction (mkMachine [.MoveRight] []) =
        .ok { mkMachine [.MoveRight] [] with pointer := 1, program_counter := 1 }) ∧
    (tapeSize ≤ ({ mkMachine [.Increment] [] with pointer := tapeSize }).pointer ∧
      Instruction.Increment ∈ tape_accessing ∧
      ({ mkMachine [.Increment] [] with pointer := tapeSize }).program.get?
        ({ mkMachine [.Increment] [] with pointer := tapeSize }).program_counter =
        some .Increment ∧
      ∃ e m2, perform_next_instruction { mkMachine [.Increment] [] with pointer := tapeSize } =
        .error (e, m2)) :=
  ⟨⟨rfl, (c10_move_right_unchecked (mkMachine [.MoveRight] [])).1 rfl⟩,
    ⟨le_refl tapeSize, by decide, rfl,
      (c10_move_right_unchecked { mkMachine [.Increment] [] with pointer := tapeSize }).2
        (le_refl tapeSize) .Increment (by decide) rfl⟩⟩

end BF
